import Mathlib

/-
Shallow embedding of the core of mcp-llm-bridge:
  * src/mcp_llm_bridge/conversation.py  (ConversationManager)
  * src/mcp_llm_bridge/context_selector.py (ContextSelector)
  * src/mcp_llm_bridge/adapters.py (AdapterManager._call_bash_adapter)
Python strings are modelled as `List Char`; the on-disk state of one
conversation id is a `ConvFiles` record; the whole conversation directory is
a map from sanitized id (file stem) to `ConvFiles`.
-/

namespace McpLlmBridge

/-- Python `str` modelled at character level. -/
abbrev Str := List Char

/-- One conversation message record, `conversation.py` lines 150-156.
Per-message metadata is an open string-keyed map; its values are modelled
as strings. -/
structure Msg where
  turn : Nat
  speaker : Str
  content : Str
  timestamp : Str
  mdata : List (Str × Str)
deriving DecidableEq

/-- One physical line of a `.jsonl` log file: a line that parses to a
message, a line that fails `json.loads`, or an empty line. -/
inductive Line where
  | ok (m : Msg)
  | corrupt
  | blank
deriving DecidableEq

/-- A legacy `<id>.json` file: either a parsable JSON array of messages or
unreadable content (`json.JSONDecodeError` on load). -/
inductive LegacyFile where
  | parsed (msgs : List Msg)
  | corrupt
deriving DecidableEq

/-- The files the store may hold for one sanitized id: the `.jsonl` log,
the legacy `.json` file, and the `.json.bak` backup. `none` = file absent. -/
structure ConvFiles where
  jsonl : Option (List Line)
  legacy : Option LegacyFile
  bak : Option LegacyFile
deriving DecidableEq

/-- No file on disk for this id. -/
def noFiles : ConvFiles := ⟨none, none, none⟩

/-- Characters kept by `_sanitize_id`: `c.isalnum() or c in "-_"`
(conversation.py line 30). -/
def isSafeChar (c : Char) : Bool := c.isAlphanum || c = '-' || c = '_'

/-- Python `c in s` for a single character `c`. -/
def strHas (s : Str) (c : Char) : Bool := s.any (fun d => d = c)

/-- Python `".." in conversation_id` (substring test for two consecutive dots). -/
def hasDotDot : Str → Bool
  | [] => false
  | [_] => false
  | c :: d :: rest => (c = '.' && d = '.') || hasDotDot (d :: rest)

/-- Embeds `ConversationManager._sanitize_id`, conversation.py lines 20-33. -/
def sanitize_id (conversation_id : Str) : Str :=
  if strHas conversation_id '/' || strHas conversation_id '\\' ||
      hasDotDot conversation_id then []
  else conversation_id.filter isSafeChar

/-- Embeds `ConversationManager._migrate_if_needed`, conversation.py lines 323-366,
success path of the OS calls.  If the `.jsonl` file exists it returns at
line 334 without touching anything; an absent or unparsable legacy file is
also a no-op; otherwise the legacy messages are rewritten line-oriented and
the original renamed to `.json.bak`. -/
def migrate_if_needed (s : ConvFiles) : ConvFiles :=
  if s.jsonl.isSome then s
  else
    match s.legacy with
    | none => s
    | some LegacyFile.corrupt => s
    | some (LegacyFile.parsed msgs) => ⟨some (msgs.map Line.ok), none, some (LegacyFile.parsed msgs)⟩

/-- The parse result of one log line: corrupted and blank lines are
skipped (conversation.py lines 195-208). -/
def line_message : Line → Option Msg
  | Line.ok m => some m
  | Line.corrupt => none
  | Line.blank => none

/-- The line-by-line parse loop of `read_messages`. -/
def parse_lines (lines : List Line) : List Msg :=
  lines.filterMap line_message

/-- Clamp one Python slice endpoint for a sequence of length `n`. -/
def pySliceClamp (n : Nat) (i : Int) : Nat :=
  if i < 0 then (max (Int.ofNat n + i) 0).toNat else min i.toNat n

/-- Python `xs[start:stop]`. -/
def pySlice (xs : List Msg) (start stop : Option Int) : List Msg :=
  let n := xs.length
  let s := match start with | none => 0 | some i => pySliceClamp n i
  let e := match stop with | none => n | some i => pySliceClamp n i
  (xs.take e).drop s

/-- Embeds `ConversationManager.read_messages`, conversation.py lines 168-214,
restricted to the files of one id: migrate first, return `[]` when the log file
is absent, otherwise parse line by line skipping unparsable lines, then
apply the optional slice. -/
def read_messages (s : ConvFiles) (start stop : Option Int) : List Msg :=
  let s1 := migrate_if_needed s
  match s1.jsonl with
  | none => []
  | some lines =>
    let messages := parse_lines lines
    if start.isSome || stop.isSome then pySlice messages start stop else messages

/-- Embeds `ConversationManager.append_message`, conversation.py lines 125-166,
on the files of one id: migrate, count existing messages via `read_messages`,
build the record with `turn = count + 1`, and append it as one line
(opening in append mode creates a missing file).  The metadata sidecar
update of line 166 is outside the modelled state. -/
def append_message (s : ConvFiles) (speaker content timestamp : Str)
    (mdata : List (Str × Str)) : ConvFiles :=
  let s1 := migrate_if_needed s
  let message_count := (read_messages s1 none none).length
  let m : Msg := ⟨message_count + 1, speaker, content, timestamp, mdata⟩
  ⟨some ((s1.jsonl.getD []) ++ [Line.ok m]), s1.legacy, s1.bak⟩

/-- The conversation directory: file state per sanitized id (file stem). -/
structure Store where
  files : Str → ConvFiles

/-- A directory with no conversation files at all. -/
def emptyStore : Store := ⟨fun _ => noFiles⟩

/-- Replace the files stored under one stem. -/
def Store.update (st : Store) (key : Str) (f : ConvFiles) : Store :=
  ⟨fun k => if k = key then f else st.files k⟩

/-- Lifts `append_message` to the store level: the path is named by the
sanitized id (conversation.py lines 35-38 and 144). -/
def storeAppend (st : Store) (conversation_id speaker content timestamp : Str)
    (mdata : List (Str × Str)) : Store :=
  let key := sanitize_id conversation_id
  st.update key (append_message (st.files key) speaker content timestamp mdata)

/-- Lifts `read_messages` to the store level. -/
def storeRead (st : Store) (conversation_id : Str) (start stop : Option Int) : List Msg :=
  read_messages (st.files (sanitize_id conversation_id)) start stop

/-- Embeds `ConversationManager.conversation_exists`, conversation.py lines 45-54:
the `.jsonl` file or the legacy `.json` file exists. -/
def conversation_exists (st : Store) (conversation_id : Str) : Bool :=
  let f := st.files (sanitize_id conversation_id)
  f.jsonl.isSome || f.legacy.isSome

/-- Outcome of `create_conversation`: the empty-string sentinel for a
sanitization failure, the `ValueError` of line 91, or the created id. -/
inductive CreateResult where
  | invalidId
  | alreadyExists (id : Str)
  | created (id : Str)
deriving DecidableEq

/-- Embeds `ConversationManager.create_conversation`, conversation.py lines 56-123.
`genId` stands for the timestamp-plus-random id generated at lines 77-81
when no id is supplied; `ts` is the current time used for the initial
append.  The metadata snapshot of lines 108-121 is outside the modelled
state. -/
def create_conversation (st : Store) (conversation_id genId initial_message host_name ts : Str) :
    CreateResult × Store :=
  let cid := if conversation_id = [] then genId else conversation_id
  let sid := sanitize_id cid
  if sid = [] then (CreateResult.invalidId, st)
  else if conversation_exists st sid then (CreateResult.alreadyExists sid, st)
  else
    let touched := st.update sid ⟨some [], (st.files sid).legacy, (st.files sid).bak⟩
    let speaker := if host_name = [] then "host".data else "host_".data ++ host_name
    let st2 := if initial_message = [] then touched
               else storeAppend touched sid speaker initial_message ts []
    (CreateResult.created sid, st2)

/-- A conversation file just after `create_conversation` touched it. -/
def emptyConv : ConvFiles := ⟨some [], none, none⟩

/-- A log obtained from a fresh conversation by a sequence of appends,
each `(speaker, content, timestamp)`. -/
def build_log (ops : List (Str × Str × Str)) : ConvFiles :=
  ops.foldl (fun s p => append_message s p.1 p.2.1 p.2.2 []) emptyConv

/-! ### ContextSelector, context_selector.py -/

/-- Python `xs[-n:]` for `n ≥ 1`: the last `n` elements (all of them when
fewer than `n` exist). -/
def pyLastN (n : Nat) (xs : List Msg) : List Msg := xs.drop (xs.length - n)

/-- Embeds `ContextSelector._smart_select`, context_selector.py lines 45-59:
all messages when fewer than 10, else `[messages[0]] + messages[-5:]`. -/
def smart_select (messages : List Msg) : List Msg :=
  if messages.length < 10 then messages
  else messages.take 1 ++ pyLastN 5 messages

/-- Embeds `ContextSelector.estimate_tokens`, context_selector.py lines 61-82:
`sum(len(content) + len(speaker) + 4) // 4`. -/
def estimate_tokens (messages : List Msg) : Nat :=
  if messages = [] then 0
  else (messages.foldl (fun acc m => acc + m.content.length + m.speaker.length + 4) 0) / 4

/-- The `for i in range(k, 0, -1): if fits(candidate(i)): return candidate(i)`
search loops of `_apply_token_limit`: largest `i ≤ k` whose candidate fits. -/
def shrink_search (candidate : Nat → List Msg) (fits : List Msg → Bool) : Nat → Option (List Msg)
  | 0 => none
  | Nat.succ i =>
    if fits (candidate (i + 1)) then some (candidate (i + 1))
    else shrink_search candidate fits i

/-- Embeds `ContextSelector._apply_token_limit`, context_selector.py lines 84-133. -/
def apply_token_limit (messages : List Msg) (max_tokens : Nat) (mode : Str) : List Msg :=
  if messages = [] then messages
  else if estimate_tokens messages ≤ max_tokens then messages
  else
    let fits := fun c => decide (estimate_tokens c ≤ max_tokens)
    if mode = "smart".data ∧ 1 < messages.length then
      let first_msg := messages.take 1
      let remaining := messages.drop 1
      match shrink_search (fun i => first_msg ++ pyLastN i remaining) fits remaining.length with
      | some c => c
      | none =>
        match shrink_search (fun i => pyLastN i messages) fits messages.length with
        | some c => c
        | none => []
    else
      match shrink_search (fun i => pyLastN i messages) fits messages.length with
      | some c => c
      | none => []

/-- Embeds `ContextSelector.select`, context_selector.py lines 9-43.  Mode `none`
returns early at line 27, skipping the token limit; an unknown mode raises
`ValueError` (modelled as `Except.error`). -/
def select (messages : List Msg) (mode : Str) (max_tokens : Option Nat) :
    Except Str (List Msg) :=
  if mode = "none".data then Except.ok []
  else
    let sel? : Except Str (List Msg) :=
      if mode = "minimal".data then
        Except.ok (if messages ≠ [] then pyLastN 1 messages else [])
      else if mode = "recent".data then
        Except.ok (if 10 < messages.length then pyLastN 10 messages else messages)
      else if mode = "smart".data then Except.ok (smart_select messages)
      else if mode = "full".data then Except.ok messages
      else Except.error ("Unknown context mode: ".data ++ mode)
    match sel? with
    | Except.error e => Except.error e
    | Except.ok selected =>
      match max_tokens with
      | none => Except.ok selected
      | some mt => Except.ok (apply_token_limit selected mt mode)

/-! ### Metadata generation, conversation.py `_generate_metadata` -/

/-- The distinct elements of a list in order of first appearance
(the contents a Python `set` built from the list would hold). -/
def distinct_first (seen : List Str) : List Str → List Str
  | [] => []
  | x :: xs =>
    if x ∈ seen then distinct_first seen xs
    else x :: distinct_first (x :: seen) xs

/-- Speakers of a log in file order of first appearance. -/
def first_appearance (messages : List Msg) : List Str :=
  distinct_first [] (messages.map Msg.speaker)

/-- Embeds `participants = list(set(msg["speaker"] for msg in messages))`,
conversation.py line 307.  The contents of the Python set are the distinct
speakers; the iteration order that `list(...)` observes is unspecified
(hash-based), so it is modelled by the parameter `set_order`, an arbitrary
reordering applied to the distinct speakers. -/
def generate_participants (set_order : List Str → List Str) (messages : List Msg) : List Str :=
  set_order (first_appearance messages)

/-- Validity of a set-iteration order: it may only permute the elements. -/
def SetOrderValid (set_order : List Str → List Str) : Prop :=
  ∀ xs, (set_order xs).Perm xs

/-! ### AdapterManager._call_bash_adapter, adapters.py -/

/-- Predicate `startsWith s pat`: the string `s` begins with `pat`. -/
def startsWith : Str → Str → Bool
  | _, [] => true
  | [], _ :: _ => false
  | c :: cs, p :: ps => c = p && startsWith cs ps

theorem startsWith_length {s pat : Str} (h : startsWith s pat = true) :
    pat.length ≤ s.length := by
  induction pat generalizing s with
  | nil => simp
  | cons p ps ih =>
    cases s with
    | nil => simp [startsWith] at h
    | cons c cs =>
      simp only [startsWith, Bool.and_eq_true] at h
      simpa using Nat.succ_le_succ (ih h.2)

/-- Python `pat in s` (substring containment). -/
def strContains (s pat : Str) : Bool :=
  startsWith s pat ||
    match s with
    | [] => false
    | _ :: rest => strContains rest pat

/-- Scanner for `replaceAll`, structurally recursive on a fuel bound that
dominates the length of the remaining string: at a position where the
(non-empty) pattern matches, emit the replacement and resume after the
pattern, else keep the character and move one position right. -/
def replaceAllFuel (pat rep : Str) : Nat → Str → Str
  | _, [] => []
  | 0, s => s
  | Nat.succ fuel, c :: rest =>
    if startsWith (c :: rest) pat ∧ pat ≠ [] then
      rep ++ replaceAllFuel pat rep fuel (rest.drop (pat.length - 1))
    else c :: replaceAllFuel pat rep fuel rest

/-- Python `s.replace(pat, rep)`: replace every non-overlapping occurrence
of `pat`, scanning left to right. -/
def replaceAll (pat rep s : Str) : Str := replaceAllFuel pat rep s.length s

/-- The `{message}` placeholder token of adapters.py lines 132-133. -/
def placeholder : Str := "{message}".data

/-- The arg-processing loop of adapters.py lines 128-140: each arg that
contains the placeholder is replaced (latching `message_added`), others
pass through. -/
def process_args_loop (args : List Str) (message : Str) : List Str × Bool :=
  args.foldl
    (fun acc arg =>
      if strContains arg placeholder then
        (acc.1 ++ [replaceAll placeholder message arg], true)
      else (acc.1 ++ [arg], acc.2))
    ([], false)

/-- Command/stdin construction of adapters.py lines 122-147: with
`input_method == "arg"` the message goes into the argument list (appended
at the end when no arg held the placeholder and the message is non-empty)
and `stdin_input = None`; otherwise args pass verbatim and the message
becomes the stdin input. -/
def build_command (command : Str) (args : List Str) (message input_method : Str) :
    List Str × Option Str :=
  if input_method = "arg".data then
    let pa := process_args_loop args message
    let processed := if pa.2 = false ∧ message ≠ [] then pa.1 ++ [message] else pa.1
    (command :: processed, none)
  else (command :: args, some message)

/-- Embeds `AdapterManager._format_history`, adapters.py lines 227-238:
`"speaker: content"` with newlines collapsed to spaces, joined by `" | "`. -/
def format_history (history : List Msg) : Str :=
  if history = [] then []
  else
    let render := fun (m : Msg) =>
      m.speaker ++ ": ".data ++ m.content.map (fun c => if c = '\n' then ' ' else c)
    match history.map render with
    | [] => []
    | l :: ls => ls.foldl (fun acc x => acc ++ " | ".data ++ x) l

/-- History prepending, adapters.py lines 149-157.  `stdin_input` is truthy
only when it is a non-empty string; when history is passed and non-empty it
is prepended with `" | "`, or becomes the whole stdin when there was no
truthy stdin input. -/
def with_history (stdin0 : Option Str) (history : List Msg) (pass_history : Bool) : Option Str :=
  if pass_history = true ∧ history ≠ [] then
    match stdin0 with
    | some s =>
      if s ≠ [] then some (format_history history ++ " | ".data ++ s)
      else some (format_history history)
    | none => some (format_history history)
  else stdin0

/-- Embeds `stdin=PIPE if stdin_input else None` and the `communicate` input of
adapters.py lines 163-175: an empty-string stdin input behaves as no stdin. -/
def effective_stdin : Option Str → Option Str
  | none => none
  | some s => if s = [] then none else some s

/-- What the external process did, as observed by the `try` block of
adapters.py lines 162-177. -/
inductive ProcOutcome where
  | completed (returncode : Int) (stdout stderr : Str)
  | timedOut
  | commandNotFound
  | failed (msg : Str)
deriving DecidableEq

/-- Process-affecting actions the adapter code performs. -/
inductive ProcAction where
  | spawn (argv : List Str) (stdin : Option Str)
  | kill
deriving DecidableEq

/-- The result dict of `_call_bash_adapter` (response plus metadata). -/
structure CallResult where
  response : Str
  adapter : Str
  exit_code : Int
  execution_time_ms : Nat
  error : Option Str
deriving DecidableEq

/-- Configuration fields read by `_call_bash_adapter`, adapters.py
lines 114-120 (defaults: `input_method = "stdin"`, `timeout_seconds = 300`). -/
structure BashAdapterCfg where
  name : Str
  command : Str
  args : List Str
  input_method : Str
  timeout_seconds : Nat
deriving DecidableEq

/-- Python `str.strip()`: drop leading and trailing whitespace. -/
def pyStrip (s : Str) : Str :=
  ((s.dropWhile Char.isWhitespace).reverse.dropWhile Char.isWhitespace).reverse

/-- The f-string `f"Command timed out after {timeout} seconds"`,
adapters.py line 201. -/
def timeout_error_message (t : Nat) : Str :=
  "Command timed out after ".data ++ (toString t).data ++ " seconds".data

/-- Embeds `AdapterManager._call_bash_adapter`, adapters.py lines 106-225:
command construction, history injection, then the four result branches.
The wall-clock duration of a completed or failed call is the parameter
`elapsed_ms`.  Besides the result, the list of process actions the code
performs is returned; note the `asyncio.TimeoutError` handler at lines
194-203 performs no kill. -/
def call_bash_adapter (cfg : BashAdapterCfg) (message : Str) (history : List Msg)
    (pass_history : Bool) (outcome : ProcOutcome) (elapsed_ms : Nat) :
    CallResult × List ProcAction :=
  let bc := build_command cfg.command cfg.args message cfg.input_method
  let stdin1 := with_history bc.2 history pass_history
  let actions := [ProcAction.spawn bc.1 (effective_stdin stdin1)]
  match outcome with
  | ProcOutcome.completed rc out err =>
    (⟨pyStrip out, cfg.name, rc, elapsed_ms,
      if rc ≠ 0 then (if err ≠ [] then some (pyStrip err) else none) else none⟩, actions)
  | ProcOutcome.timedOut =>
    (⟨[], cfg.name, -1, cfg.timeout_seconds * 1000,
      some (timeout_error_message cfg.timeout_seconds)⟩, actions)
  | ProcOutcome.commandNotFound =>
    (⟨[], cfg.name, -1, 0, some ("Command not found: ".data ++ cfg.command)⟩, actions)
  | ProcOutcome.failed m =>
    (⟨[], cfg.name, -1, elapsed_ms, some m⟩, actions)

/-! ### Helper lemmas: conversation store -/

theorem migrate_jsonl_some (l : List Line) (leg bak : Option LegacyFile) :
    migrate_if_needed ⟨some l, leg, bak⟩ = ⟨some l, leg, bak⟩ := by
  simp [migrate_if_needed]

theorem migrate_idem (s : ConvFiles) :
    migrate_if_needed (migrate_if_needed s) = migrate_if_needed s := by
  rcases s with ⟨jsonl, legacy, bak⟩
  cases jsonl with
  | some l => simp [migrate_if_needed]
  | none =>
    cases legacy with
    | none => simp [migrate_if_needed]
    | some lf => cases lf <;> simp [migrate_if_needed]

theorem read_eq_parse (s : ConvFiles) :
    read_messages s none none = parse_lines ((migrate_if_needed s).jsonl.getD []) := by
  unfold read_messages
  cases h : (migrate_if_needed s).jsonl with
  | none => simp [h, parse_lines]
  | some lines => simp [h]

theorem read_file_some (lines : List Line) (leg bak : Option LegacyFile) :
    read_messages ⟨some lines, leg, bak⟩ none none = parse_lines lines := by
  rw [read_eq_parse, migrate_jsonl_some]
  rfl

theorem read_append (s : ConvFiles) (sp c ts : Str) (md : List (Str × Str)) :
    read_messages (append_message s sp c ts md) none none =
      read_messages s none none ++
        [⟨(read_messages s none none).length + 1, sp, c, ts, md⟩] := by
  have hcount : read_messages (migrate_if_needed s) none none = read_messages s none none := by
    rw [read_eq_parse, read_eq_parse, migrate_idem]
  simp only [append_message]
  rw [read_file_some]
  unfold parse_lines
  rw [List.filterMap_append, hcount, read_eq_parse s]
  unfold parse_lines
  simp [line_message]

theorem read_emptyConv : read_messages emptyConv none none = [] := by decide

theorem read_build_log_step (s : ConvFiles) (sp c ts : Str)
    (h : (read_messages s none none).map Msg.turn =
      List.range' 1 (read_messages s none none).length) :
    (read_messages (append_message s sp c ts []) none none).map Msg.turn =
      List.range' 1 (read_messages (append_message s sp c ts []) none none).length := by
  rw [read_append]
  simp only [List.map_append, List.length_append, List.map_cons, List.map_nil, List.length_cons,
    List.length_nil]
  rw [h]
  have : List.range' 1 ((read_messages s none none).length + 1) =
      List.range' 1 (read_messages s none none).length ++
        [1 + 1 * (read_messages s none none).length] := List.range'_concat 1 _
  rw [this]
  simp [Nat.add_comm]

theorem read_build_log_aux (ops : List (Str × Str × Str)) :
    ∀ s : ConvFiles,
      (read_messages s none none).map Msg.turn =
        List.range' 1 (read_messages s none none).length →
      (read_messages (ops.foldl (fun s p => append_message s p.1 p.2.1 p.2.2 []) s) none
          none).map Msg.turn =
        List.range' 1
          (read_messages (ops.foldl (fun s p => append_message s p.1 p.2.1 p.2.2 []) s) none
            none).length ∧
      (read_messages (ops.foldl (fun s p => append_message s p.1 p.2.1 p.2.2 []) s) none
          none).length = (read_messages s none none).length + ops.length := by
  induction ops with
  | nil => intro s h; exact ⟨h, rfl⟩
  | cons op ops ih =>
    intro s h
    simp only [List.foldl_cons]
    have hstep := read_build_log_step s op.1 op.2.1 op.2.2 h
    have hlen : (read_messages (append_message s op.1 op.2.1 op.2.2 []) none none).length =
        (read_messages s none none).length + 1 := by
      rw [read_append]; simp
    have hrec := ih (append_message s op.1 op.2.1 op.2.2 []) hstep
    refine ⟨hrec.1, ?_⟩
    rw [hrec.2, hlen]
    simp only [List.length_cons]
    omega

/-! ### Claim theorems: conversation store -/

/-- C1: appending to any conversation state and then reading returns, as
the last element, a message whose turn is the prior message count plus one
and whose speaker/content/timestamp/metadata are exactly the appended
values; consequently a log built from a fresh conversation by appends
alone carries turns 1..n in order. -/
theorem append_then_read_roundtrip :
    (∀ (s : ConvFiles) (sp c ts : Str) (md : List (Str × Str)),
      read_messages (append_message s sp c ts md) none none =
        read_messages s none none ++
          [⟨(read_messages s none none).length + 1, sp, c, ts, md⟩] ∧
      (read_messages (append_message s sp c ts md) none none).getLast? =
        some ⟨(read_messages s none none).length + 1, sp, c, ts, md⟩) ∧
    (∀ ops : List (Str × Str × Str),
      (read_messages (build_log ops) none none).map Msg.turn =
        List.range' 1 ops.length) := by
  constructor
  · intro s sp c ts md
    refine ⟨read_append s sp c ts md, ?_⟩
    rw [read_append]
    simp
  · intro ops
    have hbase : (read_messages emptyConv none none).map Msg.turn =
        List.range' 1 (read_messages emptyConv none none).length := by
      rw [read_emptyConv]; rfl
    have h := read_build_log_aux ops emptyConv hbase
    rcases h with ⟨h1, h2⟩
    rw [read_emptyConv] at h2
    unfold build_log
    rw [h1]
    congr 1
    simpa using h2

/-- C6: legacy-log migration is idempotent — when the line-oriented log
file already exists, `_migrate_if_needed` returns the state untouched (no
new `.bak`, no record change), and running migration twice always equals
running it once. -/
theorem migration_idempotent :
    (∀ (lines : List Line) (leg bak : Option LegacyFile),
      migrate_if_needed ⟨some lines, leg, bak⟩ = ⟨some lines, leg, bak⟩) ∧
    (∀ s : ConvFiles, migrate_if_needed (migrate_if_needed s) = migrate_if_needed s) := by
  exact ⟨migrate_jsonl_some, migrate_idem⟩

/-- C7: reading an identifier with no existing log (neither `.jsonl` nor
legacy `.json`) yields `[]` and no error, and reading a log file returns
exactly the parsable lines in order, skipping each unparsable line. -/
theorem read_missing_and_corrupt (st : Store) (conversation_id : Str)
    (hj : (st.files (sanitize_id conversation_id)).jsonl = none)
    (hl : (st.files (sanitize_id conversation_id)).legacy = none) :
    storeRead st conversation_id none none = [] ∧
    (∀ (lines : List Line) (leg bak : Option LegacyFile),
      read_messages ⟨some lines, leg, bak⟩ none none = lines.filterMap line_message) := by
  constructor
  · unfold storeRead
    rcases hfiles : st.files (sanitize_id conversation_id) with ⟨jsonl, legacy, bak⟩
    rw [hfiles] at hj hl
    simp only at hj hl
    subst hj; subst hl
    simp [read_messages, migrate_if_needed]
  · intro lines leg bak
    rw [read_eq_parse, migrate_jsonl_some]
    rfl

/-! ### Helper lemmas: sanitization and creation -/

theorem strHas_false {s : Str} {c : Char} (h : ∀ d ∈ s, d ≠ c) : strHas s c = false := by
  rw [Bool.eq_false_iff]
  intro hcontra
  obtain ⟨x, hx, hx'⟩ := List.any_eq_true.mp hcontra
  exact h x hx (of_decide_eq_true hx')

theorem hasDotDot_false : ∀ {cid : Str}, (∀ ch ∈ cid, ch ≠ '.') → hasDotDot cid = false := by
  intro cid
  induction cid with
  | nil => intro _; rfl
  | cons c tail ih =>
    intro h
    cases tail with
    | nil => rfl
    | cons d rest =>
      have hc : c ≠ '.' := h c (by simp)
      have ht : ∀ ch ∈ d :: rest, ch ≠ '.' := fun ch hm => h ch (List.mem_cons_of_mem _ hm)
      have hr := ih ht
      simp [hasDotDot, hr, hc]

theorem sanitize_of_safe {cid : Str} (h : ∀ ch ∈ cid, isSafeChar ch = true) :
    sanitize_id cid = cid := by
  have h1 : strHas cid '/' = false := by
    refine strHas_false fun d hd he => ?_
    have := h d hd
    rw [he] at this
    exact absurd this (by decide)
  have h2 : strHas cid '\\' = false := by
    refine strHas_false fun d hd he => ?_
    have := h d hd
    rw [he] at this
    exact absurd this (by decide)
  have h3 : hasDotDot cid = false := by
    refine hasDotDot_false fun ch hm he => ?_
    have := h ch hm
    rw [he] at this
    exact absurd this (by decide)
  unfold sanitize_id
  rw [h1, h2, h3]
  simp
  exact h

theorem sanitize_of_unsafe {cid : Str}
    (h : (strHas cid '/' || strHas cid '\\' || hasDotDot cid ||
      decide (cid.filter isSafeChar = [])) = true) :
    sanitize_id cid = [] := by
  unfold sanitize_id
  by_cases hc : (strHas cid '/' || strHas cid '\\' || hasDotDot cid) = true
  · simp [hc]
  · rw [Bool.or_eq_true, Bool.or_eq_true, Bool.or_eq_true] at h
    rw [Bool.or_eq_true, Bool.or_eq_true] at hc
    push_neg at hc
    rcases h with ((h | h) | h) | h
    · exact absurd (Or.inl (Or.inl h)) (by tauto)
    · exact absurd (Or.inl (Or.inr h)) (by tauto)
    · exact absurd (Or.inr h) (by tauto)
    · have hfil := of_decide_eq_true h
      simp [hfil]

theorem read_none {s : ConvFiles} (hj : s.jsonl = none) (hl : s.legacy = none) :
    read_messages s none none = [] := by
  rcases s with ⟨jsonl, legacy, bak⟩
  simp only at hj hl
  subst hj; subst hl
  simp [read_messages, migrate_if_needed]

/-! ### Claim theorems: sanitization, creation, uncreated appends -/

/-- C3: `create_conversation` on a supplied identifier containing `/`, `\`,
or `..`, or whose safe-character filtrate is empty, returns the
empty-string sentinel (modelled `CreateResult.invalidId`) and leaves the
store untouched; on a non-empty identifier of safe characters only it
returns exactly that identifier. -/
theorem create_sanitization :
    (∀ (st : Store) (cid genId init host ts : Str), cid ≠ [] →
      (strHas cid '/' || strHas cid '\\' || hasDotDot cid ||
        decide (cid.filter isSafeChar = [])) = true →
      create_conversation st cid genId init host ts = (CreateResult.invalidId, st)) ∧
    (∀ (st : Store) (cid genId init host ts : Str), cid ≠ [] →
      (∀ ch ∈ cid, isSafeChar ch = true) →
      conversation_exists st cid = false →
      (create_conversation st cid genId init host ts).1 = CreateResult.created cid) := by
  constructor
  · intro st cid genId init host ts hne h
    unfold create_conversation
    simp only [hne, if_neg, if_false, sanitize_of_unsafe h]
    simp
  · intro st cid genId init host ts hne hsafe hex
    unfold create_conversation
    simp only [hne, if_neg, if_false, sanitize_of_safe hsafe]
    simp [hne, hex]

/-- Witness for C3: `"../../etc/passwd"` is rejected with the sentinel and
no store change; `"conv_1"` is created under exactly that id. -/
theorem create_sanitization_witness :
    create_conversation emptyStore "../../etc/passwd".data "g".data [] [] [] =
      (CreateResult.invalidId, emptyStore) ∧
    (create_conversation emptyStore "conv_1".data "g".data [] [] []).1 =
      CreateResult.created "conv_1".data := by
  constructor
  · exact create_sanitization.1 emptyStore "../../etc/passwd".data "g".data [] [] []
      (by decide) (by decide)
  · exact create_sanitization.2 emptyStore "conv_1".data "g".data [] [] []
      (by decide) (by decide) (by decide)

/-- C10: `append_message` never requires the conversation to exist — on an
identifier with no files it creates the log and writes turn 1; all
identifiers that sanitize to the empty string (exactly those
`create_conversation` rejects) alias the single file named by the empty
stem, so an append through one is read back through any other. -/
theorem append_without_create :
    (∀ (st : Store) (cid sp c ts : Str) (md : List (Str × Str)),
      (st.files (sanitize_id cid)).jsonl = none →
      (st.files (sanitize_id cid)).legacy = none →
      storeRead (storeAppend st cid sp c ts md) cid none none = [⟨1, sp, c, ts, md⟩]) ∧
    (∀ (st : Store) (cid1 cid2 sp c ts : Str) (md : List (Str × Str)),
      sanitize_id cid1 = [] → sanitize_id cid2 = [] →
      storeRead (storeAppend st cid1 sp c ts md) cid2 none none =
        storeRead (storeAppend st cid1 sp c ts md) cid1 none none) ∧
    (∀ (st : Store) (cid genId init host ts : Str), cid ≠ [] → sanitize_id cid = [] →
      create_conversation st cid genId init host ts = (CreateResult.invalidId, st)) := by
  refine ⟨?_, ?_, ?_⟩
  · intro st cid sp c ts md hj hl
    unfold storeRead storeAppend Store.update
    dsimp only
    rw [if_pos rfl, read_append, read_none hj hl]
    simp
  · intro st cid1 cid2 sp c ts md h1 h2
    unfold storeRead
    rw [h1, h2]
  · intro st cid genId init host ts hne hsan
    unfold create_conversation
    simp only [hne, if_neg, if_false, hsan]
    simp

/-- Witness for C10 at concrete identifiers: `"x"` (never created) takes a
turn-1 append; `"a/b"` and `".."` both sanitize to the empty stem and alias
one file; `"a/b"` is exactly rejected by creation. -/
theorem append_without_create_witness :
    storeRead (storeAppend emptyStore "x".data "u".data "hi".data "t".data []) "x".data
        none none = [⟨1, "u".data, "hi".data, "t".data, []⟩] ∧
    storeRead (storeAppend emptyStore "a/b".data "u".data "hi".data "t".data []) "..".data
        none none =
      storeRead (storeAppend emptyStore "a/b".data "u".data "hi".data "t".data []) "a/b".data
        none none ∧
    create_conversation emptyStore "a/b".data "g".data [] [] [] =
      (CreateResult.invalidId, emptyStore) := by
  refine ⟨?_, ?_, ?_⟩
  · exact append_without_create.1 emptyStore "x".data "u".data "hi".data "t".data [] rfl rfl
  · exact append_without_create.2.1 emptyStore "a/b".data "..".data "u".data "hi".data
      "t".data [] (by decide) (by decide)
  · exact append_without_create.2.2 emptyStore "a/b".data "g".data [] [] []
      (by decide) (by decide)

/-- Witness for C7 at a concrete store and a concrete log holding a
corrupted and a blank line. -/
theorem read_missing_and_corrupt_witness :
    storeRead emptyStore "nope".data none none = [] ∧
    read_messages
        ⟨some [Line.ok ⟨1, "u".data, "a".data, [], []⟩, Line.corrupt, Line.blank,
          Line.ok ⟨2, "v".data, "b".data, [], []⟩], none, none⟩ none none =
      [Line.ok ⟨1, "u".data, "a".data, [], []⟩, Line.corrupt, Line.blank,
          Line.ok ⟨2, "v".data, "b".data, [], []⟩].filterMap line_message := by
  have h := read_missing_and_corrupt emptyStore "nope".data rfl rfl
  exact ⟨h.1, h.2 _ none none⟩

/-! ### Claim theorems: context selection -/

/-- C2: `select` in `smart` mode (no token budget) returns all messages
when fewer than 10 exist, and otherwise exactly the first message followed
by the last five (six elements). -/
theorem smart_mode_selection (messages : List Msg) :
    select messages "smart".data none = Except.ok (smart_select messages) ∧
    (messages.length < 10 → smart_select messages = messages) ∧
    (10 ≤ messages.length →
      smart_select messages = messages.take 1 ++ pyLastN 5 messages ∧
      (smart_select messages).length = 6) := by
  refine ⟨rfl, ?_, ?_⟩
  · intro h
    simp [smart_select, h]
  · intro h
    have hlt : ¬ messages.length < 10 := Nat.not_lt.mpr h
    refine ⟨by simp [smart_select, hlt], ?_⟩
    simp only [smart_select, hlt, if_neg, if_false, List.length_append, List.length_take,
      pyLastN, List.length_drop]
    omega

/-- Sample messages for concrete evaluations. -/
def sampleMsg (n : Nat) : Msg := ⟨n, "s".data, "c".data, "t".data, []⟩

/-- A 12-message log (long enough for smart-mode truncation). -/
def longLog : List Msg :=
  [sampleMsg 1, sampleMsg 2, sampleMsg 3, sampleMsg 4, sampleMsg 5, sampleMsg 6,
   sampleMsg 7, sampleMsg 8, sampleMsg 9, sampleMsg 10, sampleMsg 11, sampleMsg 12]

/-- A 2-message log (below the smart-mode threshold). -/
def shortLog : List Msg := [sampleMsg 1, sampleMsg 2]

/-- Witness for C2 at concrete 2-element and 12-element logs. -/
theorem smart_mode_selection_witness :
    smart_select shortLog = shortLog ∧
    (smart_select longLog = longLog.take 1 ++ pyLastN 5 longLog ∧
      (smart_select longLog).length = 6) :=
  ⟨(smart_mode_selection shortLog).2.1 (by decide),
   (smart_mode_selection longLog).2.2 (by decide)⟩

/-! ### Helper lemmas: participants generation -/

theorem distinct_first_nodup :
    ∀ (l : List Str) (seen : List Str),
      (distinct_first seen l).Nodup ∧ ∀ x ∈ distinct_first seen l, x ∉ seen := by
  intro l
  induction l with
  | nil => intro seen; simp [distinct_first]
  | cons x xs ih =>
    intro seen
    by_cases hx : x ∈ seen
    · simpa [distinct_first, hx] using ih seen
    · obtain ⟨hn, hmem⟩ := ih (x :: seen)
      simp only [distinct_first, hx, if_neg, if_false]
      constructor
      · refine List.nodup_cons.mpr ⟨fun hcontra => ?_, hn⟩
        exact hmem x hcontra (List.mem_cons_self x seen)
      · intro y hy
        rcases List.mem_cons.mp hy with hy | hy
        · subst hy; exact hx
        · exact fun hys => hmem y hy (List.mem_cons_of_mem _ hys)

theorem reverse_set_order_valid : SetOrderValid (fun xs => xs.reverse) :=
  fun xs => List.reverse_perm xs

/-- A two-speaker log whose speakers first appear in the order
`["bob", "ann"]`. -/
def twoSpeakerLog : List Msg :=
  [⟨1, "bob".data, "x".data, "t1".data, []⟩, ⟨2, "ann".data, "y".data, "t2".data, []⟩]

/-! ### Claim theorems: participants -/

/-- C5 counterexample: reversal is a legitimate iteration order of the
hash-based Python set (it permutes the distinct speakers), yet on a
concrete two-speaker log it differs from first-appearance order — so
`_generate_metadata` does not guarantee the first-appearance order the
claim states. -/
theorem participants_order_counterexample :
    generate_participants (fun xs => xs.reverse) twoSpeakerLog ≠
      first_appearance twoSpeakerLog ∧
    (generate_participants (fun xs => xs.reverse) twoSpeakerLog).Perm
      (first_appearance twoSpeakerLog) ∧
    generate_participants id twoSpeakerLog ≠
      generate_participants (fun xs => xs.reverse) twoSpeakerLog := by
  refine ⟨by decide, by decide, by decide⟩

/-- C5 amended: for every legitimate set-iteration order, the derived
participants are exactly the distinct speakers of the log — a permutation
of the first-appearance list, with no duplicates — but in an unspecified
order. -/
theorem participants_perm_distinct (set_order : List Str → List Str)
    (hvalid : SetOrderValid set_order) (messages : List Msg) :
    (generate_participants set_order messages).Perm (first_appearance messages) ∧
    (generate_participants set_order messages).Nodup := by
  have hperm := hvalid (first_appearance messages)
  refine ⟨hperm, ?_⟩
  have hnodup : (first_appearance messages).Nodup :=
    (distinct_first_nodup (messages.map Msg.speaker) []).1
  exact hperm.symm.nodup hnodup

/-- Witness for C5 (amended) at the identity iteration order and the
concrete two-speaker log. -/
theorem participants_perm_distinct_witness :
    (generate_participants id twoSpeakerLog).Perm (first_appearance twoSpeakerLog) ∧
    (generate_participants id twoSpeakerLog).Nodup :=
  participants_perm_distinct id (fun xs => List.Perm.refl xs) twoSpeakerLog

/-! ### Helper lemmas: adapter command construction -/

theorem replaceAllFuel_no_match {pat rep : Str} :
    ∀ (fuel : Nat) (s : Str), s.length ≤ fuel → strContains s pat = false →
      replaceAllFuel pat rep fuel s = s := by
  intro fuel
  induction fuel with
  | zero =>
    intro s hlen _
    have : s = [] := List.eq_nil_of_length_eq_zero (Nat.le_zero.mp hlen)
    subst this
    rfl
  | succ fuel ih =>
    intro s hlen hc
    cases s with
    | nil => rfl
    | cons c rest =>
      unfold strContains at hc
      rw [Bool.or_eq_false_iff] at hc
      have hsw : startsWith (c :: rest) pat = false := hc.1
      have hrest : strContains rest pat = false := hc.2
      simp only [replaceAllFuel, hsw, false_and, if_neg, if_false]
      have : rest.length ≤ fuel := by
        simp only [List.length_cons] at hlen
        omega
      rw [ih rest this hrest]
      simp

theorem replaceAll_of_no_match {pat rep s : Str} (h : strContains s pat = false) :
    replaceAll pat rep s = s :=
  replaceAllFuel_no_match s.length s le_rfl h

theorem process_args_loop_aux (message : Str) :
    ∀ (args : List Str) (acc : List Str) (flag : Bool),
      args.foldl
          (fun acc arg =>
            if strContains arg placeholder then
              (acc.1 ++ [replaceAll placeholder message arg], true)
            else (acc.1 ++ [arg], acc.2))
          (acc, flag) =
        (acc ++ args.map (replaceAll placeholder message),
          flag || args.any (fun a => strContains a placeholder)) := by
  intro args
  induction args with
  | nil => intro acc flag; simp
  | cons a args ih =>
    intro acc flag
    simp only [List.foldl_cons, List.map_cons, List.any_cons]
    by_cases hc : strContains a placeholder = true
    · simp only [hc, if_pos, if_true]
      rw [ih]
      simp [hc]
    · rw [Bool.not_eq_true] at hc
      simp only [hc, Bool.false_eq_true, if_neg, if_false]
      rw [ih, replaceAll_of_no_match hc]
      simp [hc]

theorem process_args_loop_spec (args : List Str) (message : Str) :
    process_args_loop args message =
      (args.map (replaceAll placeholder message),
        args.any (fun a => strContains a placeholder)) := by
  unfold process_args_loop
  rw [process_args_loop_aux]
  simp

/-! ### Claim theorems: adapter invocation -/

/-- C8 counterexample: with `input_method == "arg"` but history passing
enabled and a non-empty history, the stdin input handed to the process is
the rendered history, not nothing — the claimed "stdin is then unused" is
false for this invocation. -/
theorem arg_method_stdin_counterexample :
    with_history (build_command "cmd".data ["-x".data] "hi".data "arg".data).2
        [⟨1, "u".data, "prev".data, "t".data, []⟩] true =
      some (format_history [⟨1, "u".data, "prev".data, "t".data, []⟩]) ∧
    with_history (build_command "cmd".data ["-x".data] "hi".data "arg".data).2
        [⟨1, "u".data, "prev".data, "t".data, []⟩] true ≠ none := by
  refine ⟨by rfl, by decide⟩

/-- C8 amended: with `input_method == "arg"` the command line is the
command followed by the args with every `{message}` occurrence substituted,
plus the message as a trailing argument when no arg held the placeholder
and the message is non-empty; stdin carries no part of the message and is
unused — except that when history passing is enabled and the history is
non-empty, the rendered history alone becomes the stdin input. -/
theorem arg_method_command_line (command : Str) (args : List Str)
    (message : Str) (history : List Msg) (pass_history : Bool) :
    (build_command command args message "arg".data).1 =
      command :: (args.map (replaceAll placeholder message) ++
        (if (args.any fun a => strContains a placeholder) = false ∧ message ≠ [] then
          [message] else [])) ∧
    (build_command command args message "arg".data).2 = none ∧
    with_history (build_command command args message "arg".data).2 history pass_history =
      (if pass_history = true ∧ history ≠ [] then some (format_history history) else none) := by
  have hbc : build_command command args message "arg".data =
      (command :: (args.map (replaceAll placeholder message) ++
        (if (args.any fun a => strContains a placeholder) = false ∧ message ≠ [] then
          [message] else [])), none) := by
    unfold build_command
    rw [if_pos rfl]
    dsimp only
    rw [process_args_loop_spec]
    dsimp only
    by_cases hcond : (args.any fun a => strContains a placeholder) = false ∧ message ≠ []
    · rw [if_pos hcond, if_pos hcond]
    · rw [if_neg hcond, if_neg hcond]
      simp
  refine ⟨by rw [hbc], by rw [hbc], ?_⟩
  rw [hbc]
  by_cases hph : pass_history = true ∧ history ≠ [] <;> simp [with_history, hph]

/-- C4: on `asyncio.TimeoutError` the adapter call returns (never raises)
an empty response, exit code -1, and an error naming the timeout duration —
but the timeout handler in the code performs no kill action, so the timed-out
process is left running (divergence from the kill requirement of the claim). -/
theorem timeout_result_and_no_kill (cfg : BashAdapterCfg) (message : Str)
    (history : List Msg) (pass_history : Bool) (elapsed_ms : Nat) :
    (call_bash_adapter cfg message history pass_history ProcOutcome.timedOut elapsed_ms).1 =
      ⟨[], cfg.name, -1, cfg.timeout_seconds * 1000,
        some (timeout_error_message cfg.timeout_seconds)⟩ ∧
    ProcAction.kill ∉
      (call_bash_adapter cfg message history pass_history ProcOutcome.timedOut elapsed_ms).2 := by
  constructor
  · rfl
  · simp [call_bash_adapter]

/-- C9: on a process that ran to completion the response is the trimmed
stdout; the error field is the trimmed stderr when the exit code is
non-zero and stderr is non-empty (absent when stderr is empty), and absent
whenever the exit code is zero regardless of stderr. -/
theorem clean_exit_result (cfg : BashAdapterCfg) (message : Str) (history : List Msg)
    (pass_history : Bool) (rc : Int) (out err : Str) (elapsed_ms : Nat) :
    (call_bash_adapter cfg message history pass_history
        (ProcOutcome.completed rc out err) elapsed_ms).1.response = pyStrip out ∧
    (call_bash_adapter cfg message history pass_history
        (ProcOutcome.completed rc out err) elapsed_ms).1.exit_code = rc ∧
    (rc ≠ 0 →
      (call_bash_adapter cfg message history pass_history
          (ProcOutcome.completed rc out err) elapsed_ms).1.error =
        (if err ≠ [] then some (pyStrip err) else none)) ∧
    (rc = 0 →
      (call_bash_adapter cfg message history pass_history
          (ProcOutcome.completed rc out err) elapsed_ms).1.error = none) := by
  refine ⟨rfl, rfl, ?_, ?_⟩
  · intro h
    simp [call_bash_adapter, h]
  · intro h
    simp [call_bash_adapter, h]

/-- A concrete adapter configuration for witnesses. -/
def sampleCfg : BashAdapterCfg := ⟨"demo".data, "echo".data, [], "stdin".data, 300⟩

/-- Witness for C9 at a concrete configuration: exit code 2 with noisy
stderr yields the trimmed stderr as error; exit code 0 with the same
stderr yields no error. -/
theorem clean_exit_result_witness :
    (call_bash_adapter sampleCfg "m".data [] false
        (ProcOutcome.completed 2 " ok ".data " bad ".data) 7).1.response =
      pyStrip " ok ".data ∧
    (call_bash_adapter sampleCfg "m".data [] false
        (ProcOutcome.completed 2 " ok ".data " bad ".data) 7).1.error =
      (if " bad ".data ≠ [] then some (pyStrip " bad ".data) else none) ∧
    (call_bash_adapter sampleCfg "m".data [] false
        (ProcOutcome.completed 0 " ok ".data " bad ".data) 7).1.error = none := by
  refine ⟨(clean_exit_result sampleCfg "m".data [] false 2 " ok ".data " bad ".data 7).1,
    (clean_exit_result sampleCfg "m".data [] false 2 " ok ".data " bad ".data 7).2.2.1
      (by decide),
    (clean_exit_result sampleCfg "m".data [] false 0 " ok ".data " bad ".data 7).2.2.2 rfl⟩

end McpLlmBridge
